import Mathlib

/-!
# Verification of `tensorflow/python/feature_column/dense_features.py`

A shallow embedding of the `DenseFeatures` Keras layer: a layer that produces
one dense rank-2 tensor by resolving each stored feature-column descriptor
against the input dictionary and concatenating the per-descriptor tensors
along the last (feature) axis.

The file `dense_features.py` is the only source file available; the base-class
machinery it delegates to (`fc._BaseFeaturesLayer.__init__`,
`_process_dense_tensor`, `_verify_and_concat_tensors`,
`fc.FeatureTransformationCache`, `fc.DenseColumn`) lives in
`feature_column_v2.py`, which is part of the same repository but is not
available here.  Those parts are modelled from the specification, and each
such definition carries a doc comment starting `Modelled from the spec:`.
All definitions are computable so that concrete invocations evaluate by
`decide` / `rfl`.
-/

set_option autoImplicit false

namespace DenseFeaturesSpec

/-- Tensor element dtypes.  Only the distinction between 32-bit float and the
rest matters for the claims (the output dtype is fixed to `float32`). -/
inductive DType where
  | float32
  | float64
  | int32
  | int64
deriving DecidableEq, Repr

/-- A dense tensor: a shape (list of dimension sizes), a dtype tag, and the
flat row-major payload.  Element values are abstracted as integers; no claim
depends on floating-point arithmetic, only on which values end up where. -/
structure Tensor where
  shape : List Nat
  dtype : DType
  data : List Int
deriving DecidableEq, Repr

/-- The batch dimension `shape[0]` of a tensor (0 when the shape is empty). -/
def Tensor.batchDim (t : Tensor) : Nat :=
  t.shape.headD 0

/-- The feature-width dimension `shape[1]` of a tensor (0 when absent). -/
def Tensor.widthDim (t : Tensor) : Nat :=
  (t.shape.drop 1).headD 0

/-- Row `r` of a rank-2 tensor, read from the row-major payload. -/
def Tensor.row (t : Tensor) (r : Nat) : List Int :=
  (t.data.drop (r * t.widthDim)).take t.widthDim

/-- A feature-column descriptor.  Externally defined and opaque to this file:
it exposes a name, its per-example width contribution
(`variable_shape.num_elements()`), and whether it belongs to the
dense-tensor-producing capability class (`isinstance(column, fc.DenseColumn)`).
The descriptor's resolution behaviour (`get_dense_tensor`) is supplied
separately as a function parameter, since it is dynamic dispatch into
external code. -/
structure FeatureColumn where
  name : String
  numElements : Nat
  isDenseColumn : Bool
deriving DecidableEq, Repr

/-- The external variable-state manager (`self._state_manager`), opaque:
the layer only stores it and passes it through to each descriptor's
resolution operation. -/
structure StateManager where
  id : Nat
deriving DecidableEq, Repr

/-- Modelled from the spec: `fc.FeatureTransformationCache(features)` — "a
short-lived per-call helper wrapping the input dictionary to memoize repeated
lookups/derivations across columns; created and discarded within a single
invocation".  The model keeps the wrapped dictionary; memoization is
behaviourally invisible here. -/
structure FeatureTransformationCache where
  features : List (String × Tensor)
deriving DecidableEq, Repr

/-- Python errors raised by this code path. -/
inductive PyError where
  | valueError (msg : String)
  | invalidArgument (msg : String)
deriving DecidableEq, Repr

/-- The message of the `ValueError` raised by `call` on a non-dict argument
(`'We expected a dictionary here. Instead we got: '`). -/
def dictErrorMsg : String := "We expected a dictionary here. Instead we got: "

/-- The resolution operation of descriptors
(`column.get_dense_tensor(transformation_cache, state_manager)`): external
dynamic dispatch, supplied as a parameter to the embedded `call`. -/
def GetDenseTensor : Type :=
  FeatureColumn → FeatureTransformationCache → StateManager → Except PyError Tensor

/-- The argument passed to `call`.  Python values carry their runtime type;
the embedding records the two type-level facts the code and the claims
inspect: whether the value is an instance of `dict` (what
`isinstance(features, dict)` checks) and whether it is a mapping at all
(the spec's phrasing), plus the key/tensor entries for values that have them. -/
structure CallArg where
  entries : List (String × Tensor)
  isMapping : Bool
  isDictInstance : Bool
deriving DecidableEq, Repr

/-- The layer object: `DenseFeatures.__init__` stores the descriptor collection
(`self._feature_columns`) and the state manager (`self._state_manager`),
plus the trainable flag; nothing else of the base-layer state is relevant. -/
structure DenseFeatures where
  featureColumns : List FeatureColumn
  stateManager : StateManager
  trainable : Bool
deriving DecidableEq, Repr

/-- Helper of `dedupByName`: drop each descriptor whose name was already
seen, scanning left to right. -/
def dedupByNameAux : List String → List FeatureColumn → List FeatureColumn
  | _, [] => []
  | seen, c :: rest =>
    if c.name ∈ seen then dedupByNameAux seen rest
    else c :: dedupByNameAux (c.name :: seen) rest

/-- Modelled from the spec: the de-duplication performed on the descriptor
collection by `fc._BaseFeaturesLayer.__init__` (not under `src/`) — "the
layer holds an ordered, de-duplicated collection of these".  Keeps the first
descriptor for each name, preserving order. -/
def dedupByName (l : List FeatureColumn) : List FeatureColumn :=
  dedupByNameAux [] l

/-- Modelled from the spec: `fc._BaseFeaturesLayer.__init__` (not under
`src/`), as invoked by `DenseFeatures.__init__` with
`expected_column_type=fc.DenseColumn` (that argument is in the source) —
"rejects construction if any descriptor lacks the dense-producing capability"
(`ValueError: if an item in feature_columns is not a DenseColumn`), and
stores the ordered, de-duplicated descriptor collection together with the
state-manager reference. -/
def mkDenseFeatures (featureColumns : List FeatureColumn) (trainable : Bool)
    (sm : StateManager) : Except PyError DenseFeatures :=
  if featureColumns.all (fun c => c.isDenseColumn) then
    .ok { featureColumns := dedupByName featureColumns
          stateManager := sm
          trainable := trainable }
  else
    .error (.valueError "Items of feature_columns must be a DenseColumn.")

/-- Embedding of `DenseFeatures._target_shape(input_shape, total_elements)` from the
source: `(input_shape[0], total_elements)` — keep the batch dimension, put
all remaining elements in one feature dimension.  Indexing an empty shape
fails, hence the `Option`. -/
def targetShape (inputShape : List Nat) (totalElements : Nat) :
    Option (Nat × Nat) :=
  inputShape.head?.map (fun b => (b, totalElements))

/-- Modelled from the spec: `fc._BaseFeaturesLayer._process_dense_tensor`
(not under `src/`) — "applies a shape/rank verification-and-reshape step":
computes the target shape through the layer's `_target_shape` (which is in
the source and embedded as `targetShape`) from the tensor's shape and the
descriptor's element count, and reshapes the tensor to it; a reshape is only
possible when the element counts agree. -/
def processDenseTensor (column : FeatureColumn) (t : Tensor) :
    Except PyError Tensor :=
  match targetShape t.shape column.numElements with
  | none => .error (.invalidArgument "shape index 0 out of range")
  | some (b, w) =>
    if t.data.length = b * w then
      .ok { shape := [b, w], dtype := t.dtype, data := t.data }
    else
      .error (.invalidArgument "reshape: number of elements mismatch")

/-- Row-major payload of the concatenation of rank-2 tensors along the last
axis: row `r` of the result is the row `r` of each input, in order. -/
def concatRows (batch : Nat) (ts : List Tensor) : List Int :=
  (List.range batch).flatMap (fun r => ts.flatMap (fun t => t.row r))

/-- Modelled from the spec: `fc._BaseFeaturesLayer._verify_and_concat_tensors`
(not under `src/`) — the "base-layer shape-verification-and-concatenation
helper": verifies that the per-descriptor tensors are rank-2 with one common
batch dimension, then concatenates them along the feature axis; the output
is "a single dense numeric matrix, shape (batch_size, sum of per-column
widths), dtype fixed to 32-bit float", so each input must already carry that
dtype for the concatenation to succeed. -/
def verifyAndConcatTensors (ts : List Tensor) : Except PyError Tensor :=
  match ts with
  | [] => .error (.invalidArgument "Cannot concatenate an empty list of tensors")
  | t0 :: _ =>
    if ts.all (fun t =>
        t.shape = [t0.batchDim, t.widthDim] ∧
        t.dtype = DType.float32 ∧
        t.data.length = t0.batchDim * t.widthDim) then
      .ok { shape := [t0.batchDim, (ts.map Tensor.widthDim).sum]
            dtype := DType.float32
            data := concatRows t0.batchDim ts }
    else
      .error (.invalidArgument "concat: incompatible shapes or dtypes")

/-- The mutable dict `cols_to_output_tensors`, modelled as an association
list with the insertion-order semantics of a Python dict. -/
abbrev ColsMap : Type := List (FeatureColumn × Tensor)

/-- Python dict assignment `d[column] = v`: overwrite in place when the key
is present, append otherwise. -/
def dictInsert (m : ColsMap) (k : FeatureColumn) (v : Tensor) : ColsMap :=
  if m.any (fun p => p.1 = k) then
    m.map (fun p => if p.1 = k then (k, v) else p)
  else
    m ++ [(k, v)]

/-- Python dict lookup `d[column]` (first — and in a dict, only — entry for
the key). -/
def dictGet (m : ColsMap) (k : FeatureColumn) : Option Tensor :=
  match m with
  | [] => none
  | p :: rest => if p.1 = k then some p.2 else dictGet rest k

/-- Observable events of one invocation of `call`, recorded in source order:
construction of the transformation cache, and each invocation of a
descriptor's `get_dense_tensor` with the cache it received. -/
inductive Event where
  | cacheBuilt (cache : FeatureTransformationCache)
  | resolve (columnName : String) (cache : FeatureTransformationCache)
deriving DecidableEq, Repr

/-- Whether an event is the construction of a transformation cache. -/
def Event.isCacheBuilt : Event → Bool
  | .cacheBuilt _ => true
  | .resolve _ _ => false

/-- The `for column in self._feature_columns:` loop of `call`: resolve each
descriptor's dense tensor against the shared cache and the state manager,
process it, record it into `cols_to_output_tensors` when that dict was
supplied, and accumulate it; the first failure propagates, keeping whatever
was already recorded.  Returns the accumulated tensor list (or the error),
the final state of `cols_to_output_tensors`, and the resolution events. -/
def callColumns (getDense : GetDenseTensor) (cache : FeatureTransformationCache)
    (sm : StateManager) (colsOut : Option ColsMap) :
    List FeatureColumn → Except PyError (List Tensor) × Option ColsMap × List Event
  | [] => (.ok [], colsOut, [])
  | column :: rest =>
    match getDense column cache sm with
    | .error e => (.error e, colsOut, [Event.resolve column.name cache])
    | .ok tensor =>
      match processDenseTensor column tensor with
      | .error e => (.error e, colsOut, [Event.resolve column.name cache])
      | .ok processed =>
        let colsOut' := colsOut.map (fun m => dictInsert m column processed)
        let r := callColumns getDense cache sm colsOut' rest
        (r.1.map (fun ts => processed :: ts), r.2.1,
          Event.resolve column.name cache :: r.2.2)

instance exceptDecidableEq {ε α : Type} [DecidableEq ε] [DecidableEq α] :
    DecidableEq (Except ε α) := fun x y =>
  match x, y with
  | .ok a, .ok b =>
    if h : a = b then isTrue (by rw [h])
    else isFalse (fun hh => h (Except.ok.inj hh))
  | .error a, .error b =>
    if h : a = b then isTrue (by rw [h])
    else isFalse (fun hh => h (Except.error.inj hh))
  | .ok _, .error _ => isFalse (fun hh => Except.noConfusion hh)
  | .error _, .ok _ => isFalse (fun hh => Except.noConfusion hh)

/-- Everything one invocation of `call` produces: the returned tensor or the
raised error, the final contents of the caller-supplied
`cols_to_output_tensors` dict (`none` when the caller supplied none), the
layer object after the invocation (the source never assigns to `self`, so
the embedding returns it unchanged from the translation of each statement),
and the event trace. -/
structure CallOutcome where
  result : Except PyError Tensor
  colsToOutputTensors : Option ColsMap
  layerAfter : DenseFeatures
  trace : List Event
deriving DecidableEq, Repr

/-- Embedding of `DenseFeatures.call(features, cols_to_output_tensors=None)`, translated
statement by statement from the source: the `isinstance(features, dict)`
check raising `ValueError` first, then construction of one
`FeatureTransformationCache` over `features`, then the per-column loop, then
`self._verify_and_concat_tensors(output_tensors)`. -/
def DenseFeatures.call (layer : DenseFeatures) (getDense : GetDenseTensor)
    (features : CallArg) (colsOut : Option ColsMap) : CallOutcome :=
  if features.isDictInstance = false then
    { result := .error (.valueError dictErrorMsg)
      colsToOutputTensors := colsOut
      layerAfter := layer
      trace := [] }
  else
    let transformationCache : FeatureTransformationCache := ⟨features.entries⟩
    let r := callColumns getDense transformationCache layer.stateManager
      colsOut layer.featureColumns
    { result := r.1.bind verifyAndConcatTensors
      colsToOutputTensors := r.2.1
      layerAfter := layer
      trace := Event.cacheBuilt transformationCache :: r.2.2 }

end DenseFeaturesSpec

namespace DenseFeaturesSpec

def lookupFeature : List (String × Tensor) → String → Option Tensor
  | [], _ => none
  | p :: rest, k => if p.1 = k then some p.2 else lookupFeature rest k

def priceColumn : FeatureColumn := ⟨"price", 1, true⟩

def keywordsColumn : FeatureColumn := ⟨"kw", 2, true⟩

def exGetDense : GetDenseTensor := fun c cache _ =>
  match lookupFeature cache.features c.name with
  | some t => .ok t
  | none => .error (.valueError "feature is missing")

def exLayer : DenseFeatures := ⟨[priceColumn, keywordsColumn], ⟨0⟩, true⟩

def exFeatures : CallArg :=
  ⟨[("price", ⟨[2, 1], .float32, [10, 20]⟩),
    ("kw", ⟨[2, 2], .float32, [1, 2, 3, 4]⟩)], true, true⟩

/-- The non-dense (categorical) descriptor used to exercise the
construction-time capability check. -/
def categoricalColumn : FeatureColumn := ⟨"cat", 3, false⟩

/-- The dense matrix the example layer produces on the example features. -/
def exOutput : Tensor := ⟨[2, 3], .float32, [10, 1, 2, 20, 3, 4]⟩

/-- One descriptor step of the loop body: `get_dense_tensor` followed by
`_process_dense_tensor`, as two statements in the source. -/
def resolveAndProcess (getDense : GetDenseTensor)
    (cache : FeatureTransformationCache) (sm : StateManager)
    (c : FeatureColumn) : Except PyError Tensor :=
  match getDense c cache sm with
  | .error e => .error e
  | .ok t => processDenseTensor c t

/-- The list of processed per-descriptor tensors of one invocation, in stored
descriptor order; the first failing descriptor's error propagates. -/
def resolvedTensors (getDense : GetDenseTensor)
    (cache : FeatureTransformationCache) (sm : StateManager) :
    List FeatureColumn → Except PyError (List Tensor)
  | [] => .ok []
  | c :: rest =>
    match resolveAndProcess getDense cache sm c with
    | .error e => .error e
    | .ok p =>
      match resolvedTensors getDense cache sm rest with
      | .error e => .error e
      | .ok ps => .ok (p :: ps)

/-- Record the per-descriptor tensors into the caller-supplied dict, one
`dictInsert` per descriptor in order (the cumulative effect of the
`cols_to_output_tensors[column] = processed_tensors` assignments). -/
def recordAll : ColsMap → List FeatureColumn → List Tensor → ColsMap
  | m, [], _ => m
  | m, _ :: _, [] => m
  | m, c :: cs, t :: ts => recordAll (dictInsert m c t) cs ts

theorem callColumns_fst (getDense : GetDenseTensor)
    (cache : FeatureTransformationCache) (sm : StateManager) :
    ∀ (cols : List FeatureColumn) (colsOut : Option ColsMap),
    (callColumns getDense cache sm colsOut cols).1 =
      resolvedTensors getDense cache sm cols := by
  intro cols
  induction cols with
  | nil => intro colsOut; rfl
  | cons c rest ih =>
    intro colsOut
    cases hg : getDense c cache sm with
    | error e => simp [callColumns, resolvedTensors, resolveAndProcess, hg]
    | ok t =>
      cases hp : processDenseTensor c t with
      | error e =>
        simp [callColumns, resolvedTensors, resolveAndProcess, hg, hp]
      | ok p =>
        cases hr : resolvedTensors getDense cache sm rest with
        | error e =>
          simp [callColumns, resolvedTensors, resolveAndProcess, Except.map,
            hg, hp, hr, ih]
        | ok ps =>
          simp [callColumns, resolvedTensors, resolveAndProcess, Except.map,
            hg, hp, hr, ih]

theorem callColumns_colsOut_none (getDense : GetDenseTensor)
    (cache : FeatureTransformationCache) (sm : StateManager) :
    ∀ (cols : List FeatureColumn),
    (callColumns getDense cache sm none cols).2.1 = none := by
  intro cols
  induction cols with
  | nil => rfl
  | cons c rest ih =>
    cases hg : getDense c cache sm with
    | error e => simp [callColumns, hg]
    | ok t =>
      cases hp : processDenseTensor c t with
      | error e => simp [callColumns, hg, hp]
      | ok p => simp [callColumns, hg, hp, ih]

theorem callColumns_colsOut_ok (getDense : GetDenseTensor)
    (cache : FeatureTransformationCache) (sm : StateManager) :
    ∀ (cols : List FeatureColumn) (ts : List Tensor) (m : ColsMap),
    resolvedTensors getDense cache sm cols = .ok ts →
    (callColumns getDense cache sm (some m) cols).2.1 =
      some (recordAll m cols ts) := by
  intro cols
  induction cols with
  | nil =>
    intro ts m h
    simp only [resolvedTensors] at h
    cases h
    rfl
  | cons c rest ih =>
    intro ts m h
    simp only [resolvedTensors, resolveAndProcess] at h
    cases hg : getDense c cache sm with
    | error e => simp [hg] at h
    | ok t =>
      simp only [hg] at h
      cases hp : processDenseTensor c t with
      | error e => simp [hp] at h
      | ok p =>
        simp only [hp] at h
        cases hr : resolvedTensors getDense cache sm rest with
        | error e => simp [hr] at h
        | ok ps =>
          simp only [hr] at h
          cases h
          simpa [callColumns, hg, hp, recordAll] using
            ih ps (dictInsert m c p) hr

theorem callColumns_trace_resolve (getDense : GetDenseTensor)
    (cache : FeatureTransformationCache) (sm : StateManager) :
    ∀ (cols : List FeatureColumn) (colsOut : Option ColsMap)
      (ev : Event), ev ∈ (callColumns getDense cache sm colsOut cols).2.2 →
    ∃ n, ev = Event.resolve n cache := by
  intro cols
  induction cols with
  | nil => intro colsOut ev h; simp [callColumns] at h
  | cons c rest ih =>
    intro colsOut ev h
    cases hg : getDense c cache sm with
    | error e =>
      simp [callColumns, hg] at h
      exact ⟨c.name, h⟩
    | ok t =>
      cases hp : processDenseTensor c t with
      | error e =>
        simp [callColumns, hg, hp] at h
        exact ⟨c.name, h⟩
      | ok p =>
        simp only [callColumns, hg, hp, List.mem_cons] at h
        rcases h with h | h
        · exact ⟨c.name, h⟩
        · exact ih _ ev h

theorem processDenseTensor_ok_shape (c : FeatureColumn) (t p : Tensor)
    (h : processDenseTensor c t = .ok p) :
    p.shape = [p.batchDim, c.numElements] ∧ p.widthDim = c.numElements ∧
      p.dtype = t.dtype := by
  unfold processDenseTensor targetShape at h
  cases hs : t.shape with
  | nil => simp [hs] at h
  | cons b rest =>
    simp only [hs, List.head?_cons, Option.map_some'] at h
    by_cases hlen : t.data.length = b * c.numElements
    · simp only [hlen, if_true, if_pos] at h
      cases h
      simp [Tensor.batchDim, Tensor.widthDim]
    · simp only [if_neg hlen] at h
      cases h

theorem resolvedTensors_shapes (getDense : GetDenseTensor)
    (cache : FeatureTransformationCache) (sm : StateManager) :
    ∀ (cols : List FeatureColumn) (ts : List Tensor),
    resolvedTensors getDense cache sm cols = .ok ts →
    List.Forall₂ (fun (c : FeatureColumn) (p : Tensor) =>
      p.shape = [p.batchDim, c.numElements] ∧ p.widthDim = c.numElements)
      cols ts := by
  intro cols
  induction cols with
  | nil =>
    intro ts h
    simp only [resolvedTensors] at h
    cases h
    exact List.Forall₂.nil
  | cons c rest ih =>
    intro ts h
    simp only [resolvedTensors, resolveAndProcess] at h
    cases hg : getDense c cache sm with
    | error e => simp [hg] at h
    | ok t =>
      simp only [hg] at h
      cases hp : processDenseTensor c t with
      | error e => simp [hp] at h
      | ok p =>
        simp only [hp] at h
        cases hr : resolvedTensors getDense cache sm rest with
        | error e => simp [hr] at h
        | ok ps =>
          simp only [hr] at h
          cases h
          have hshape := processDenseTensor_ok_shape c t p hp
          exact List.Forall₂.cons ⟨hshape.1, hshape.2.1⟩ (ih ps hr)

theorem forall2_widths_map_eq (cols : List FeatureColumn) (ts : List Tensor)
    (h : List.Forall₂ (fun (c : FeatureColumn) (p : Tensor) =>
      p.shape = [p.batchDim, c.numElements] ∧ p.widthDim = c.numElements)
      cols ts) :
    ts.map Tensor.widthDim = cols.map FeatureColumn.numElements := by
  induction h with
  | nil => rfl
  | cons hcp hrest ih => simp [ih, hcp.2]

theorem verifyAndConcatTensors_ok (ts : List Tensor) (t : Tensor)
    (h : verifyAndConcatTensors ts = .ok t) :
    ∃ t0 rest, ts = t0 :: rest ∧
      t.shape = [t0.batchDim, (ts.map Tensor.widthDim).sum] ∧
      t.dtype = DType.float32 ∧
      t.data = concatRows t0.batchDim ts ∧
      t.batchDim = t0.batchDim := by
  cases ts with
  | nil => simp [verifyAndConcatTensors] at h
  | cons t0 rest =>
    refine ⟨t0, rest, rfl, ?_⟩
    unfold verifyAndConcatTensors at h
    by_cases hall : ((t0 :: rest).all (fun t =>
        decide (t.shape = [t0.batchDim, t.widthDim] ∧
          t.dtype = DType.float32 ∧
          t.data.length = t0.batchDim * t.widthDim))) = true
    · simp only [hall, if_pos] at h
      cases h
      refine ⟨rfl, rfl, rfl, ?_⟩
      simp [Tensor.batchDim]
    · simp only [if_neg hall] at h
      cases h

theorem call_ok_characterization (layer : DenseFeatures)
    (getDense : GetDenseTensor) (features : CallArg)
    (colsOut : Option ColsMap) (t : Tensor)
    (h : (layer.call getDense features colsOut).result = .ok t) :
    ∃ ts : List Tensor,
      resolvedTensors getDense ⟨features.entries⟩ layer.stateManager
        layer.featureColumns = .ok ts ∧
      verifyAndConcatTensors ts = .ok t ∧
      List.Forall₂ (fun (c : FeatureColumn) (p : Tensor) =>
        p.shape = [p.batchDim, c.numElements] ∧ p.widthDim = c.numElements)
        layer.featureColumns ts ∧
      t.shape = [t.batchDim,
        (layer.featureColumns.map FeatureColumn.numElements).sum] ∧
      t.dtype = DType.float32 ∧
      t.data = concatRows t.batchDim ts := by
  cases hd : features.isDictInstance with
  | false => simp [DenseFeatures.call, hd] at h
  | true =>
    simp only [DenseFeatures.call, hd, Bool.true_eq_false, if_false] at h
    rw [callColumns_fst] at h
    cases hr : resolvedTensors getDense ⟨features.entries⟩ layer.stateManager
        layer.featureColumns with
    | error e => simp [hr, Except.bind] at h
    | ok ts =>
      simp only [hr, Except.bind] at h
      have hshapes := resolvedTensors_shapes _ _ _ _ _ hr
      obtain ⟨t0, rest, hts, hshape, hdtype, hdata, hbatch⟩ :=
        verifyAndConcatTensors_ok ts t h
      refine ⟨ts, rfl, h, hshapes, ?_, hdtype, ?_⟩
      · rw [hshape, forall2_widths_map_eq _ _ hshapes, hbatch]
      · rw [hdata, hbatch]

theorem callColumns_error_at (getDense : GetDenseTensor)
    (cache : FeatureTransformationCache) (sm : StateManager) :
    ∀ (pre : List FeatureColumn) (ts : List Tensor) (ck : FeatureColumn)
      (post : List FeatureColumn) (m : ColsMap) (e : PyError),
    resolvedTensors getDense cache sm pre = .ok ts →
    resolveAndProcess getDense cache sm ck = .error e →
    (callColumns getDense cache sm (some m) (pre ++ ck :: post)).1 =
      .error e ∧
    (callColumns getDense cache sm (some m) (pre ++ ck :: post)).2.1 =
      some (recordAll m pre ts) := by
  intro pre
  induction pre with
  | nil =>
    intro ts ck post m e hpre hk
    simp only [resolvedTensors] at hpre
    cases hpre
    simp only [resolveAndProcess] at hk
    cases hg : getDense ck cache sm with
    | error e' =>
      simp only [hg] at hk
      cases hk
      simp [callColumns, hg, recordAll]
    | ok t =>
      simp only [hg] at hk
      simp [callColumns, hg, hk, recordAll]
  | cons c pre' ih =>
    intro ts ck post m e hpre hk
    simp only [resolvedTensors, resolveAndProcess] at hpre
    cases hg : getDense c cache sm with
    | error e' => simp [hg] at hpre
    | ok t =>
      simp only [hg] at hpre
      cases hp : processDenseTensor c t with
      | error e' => simp [hp] at hpre
      | ok p =>
        simp only [hp] at hpre
        cases hr : resolvedTensors getDense cache sm pre' with
        | error e' => simp [hr] at hpre
        | ok ps =>
          simp only [hr] at hpre
          cases hpre
          have hrec := ih ps ck post (dictInsert m c p) e hr hk
          constructor
          · simp [callColumns, hg, hp, hrec.1, Except.map]
          · simp [callColumns, hg, hp, hrec.2, recordAll]

theorem dictInsert_cons_ne (p : FeatureColumn × Tensor) (rest : ColsMap)
    (k : FeatureColumn) (v : Tensor) (hpk : ¬ p.1 = k) :
    dictInsert (p :: rest) k v = p :: dictInsert rest k v := by
  by_cases ha : rest.any (fun q => decide (q.1 = k)) = true
  · simp [dictInsert, hpk, ha]
  · simp [dictInsert, hpk, ha]

theorem dictInsert_cons_eq (p : FeatureColumn × Tensor) (rest : ColsMap)
    (k : FeatureColumn) (v : Tensor) (hpk : p.1 = k) :
    dictInsert (p :: rest) k v =
      (k, v) :: rest.map (fun q => if q.1 = k then (k, v) else q) := by
  simp [dictInsert, hpk]

theorem dictGet_dictInsert_self : ∀ (m : ColsMap) (k : FeatureColumn)
    (v : Tensor), dictGet (dictInsert m k v) k = some v := by
  intro m
  induction m with
  | nil => intro k v; simp [dictInsert, dictGet]
  | cons p rest ih =>
    intro k v
    by_cases hpk : p.1 = k
    · rw [dictInsert_cons_eq p rest k v hpk]
      simp [dictGet]
    · rw [dictInsert_cons_ne p rest k v hpk]
      simp [dictGet, hpk, ih]

theorem dictGet_map_overwrite (k : FeatureColumn) (v : Tensor)
    (c : FeatureColumn) (hkc : ¬ k = c) : ∀ (m : ColsMap),
    dictGet (m.map (fun q => if q.1 = k then (k, v) else q)) c =
      dictGet m c := by
  intro m
  induction m with
  | nil => rfl
  | cons p rest ih =>
    by_cases hpk : p.1 = k
    · simp [dictGet, hpk, hkc, ih]
    · simp [dictGet, hpk, ih]

theorem dictGet_dictInsert_ne (k : FeatureColumn) (v : Tensor)
    (c : FeatureColumn) (hkc : ¬ k = c) : ∀ (m : ColsMap),
    dictGet (dictInsert m k v) c = dictGet m c := by
  intro m
  induction m with
  | nil => simp [dictInsert, dictGet, hkc]
  | cons p rest ih =>
    by_cases hpk : p.1 = k
    · rw [dictInsert_cons_eq p rest k v hpk]
      simp [dictGet, hkc, dictGet_map_overwrite k v c hkc rest, hpk]
    · rw [dictInsert_cons_ne p rest k v hpk]
      simp [dictGet, ih]

theorem dictInsert_keys_nodup (m : ColsMap) (k : FeatureColumn) (v : Tensor)
    (h : (m.map Prod.fst).Nodup) :
    ((dictInsert m k v).map Prod.fst).Nodup := by
  unfold dictInsert
  split
  · rw [List.map_map]
    have : m.map (Prod.fst ∘ fun q => if q.1 = k then (k, v) else q) =
        m.map Prod.fst := by
      apply List.map_congr_left
      intro p hp
      by_cases hpk : p.1 = k
      · simp [hpk]
      · simp [hpk]
    rw [this]
    exact h
  · rename_i hany
    have hk : k ∉ m.map Prod.fst := by
      intro hkmem
      rcases List.mem_map.mp hkmem with ⟨p, hp, hpk⟩
      apply hany
      exact List.any_eq_true.mpr ⟨p, hp, by simp [hpk]⟩
    simp [List.nodup_append, h, hk]

theorem recordAll_keys_nodup : ∀ (cols : List FeatureColumn)
    (ts : List Tensor) (m : ColsMap), (m.map Prod.fst).Nodup →
    ((recordAll m cols ts).map Prod.fst).Nodup := by
  intro cols
  induction cols with
  | nil => intro ts m h; exact h
  | cons c cs ih =>
    intro ts m h
    cases ts with
    | nil => exact h
    | cons t ts' =>
      exact ih ts' (dictInsert m c t) (dictInsert_keys_nodup m c t h)

theorem dictGet_recordAll_not_mem (c : FeatureColumn) :
    ∀ (cols : List FeatureColumn) (ts : List Tensor) (m : ColsMap),
    c ∉ cols → dictGet (recordAll m cols ts) c = dictGet m c := by
  intro cols
  induction cols with
  | nil => intro ts m _; rfl
  | cons c' cs ih =>
    intro ts m hc
    cases ts with
    | nil => rfl
    | cons t ts' =>
      have hc' : ¬ c' = c := fun h => hc (h ▸ List.mem_cons_self c' cs)
      have hcs : c ∉ cs := fun h => hc (List.mem_cons_of_mem c' h)
      simp only [recordAll]
      rw [ih ts' (dictInsert m c' t) hcs]
      exact dictGet_dictInsert_ne c' t c hc' m

theorem dictGet_recordAll : ∀ (cols : List FeatureColumn)
    (ts : List Tensor) (m : ColsMap), cols.Nodup →
    cols.length = ts.length →
    List.Forall₂ (fun (c : FeatureColumn) (p : Tensor) =>
      dictGet (recordAll m cols ts) c = some p) cols ts := by
  intro cols
  induction cols with
  | nil =>
    intro ts m _ hlen
    cases ts with
    | nil => exact List.Forall₂.nil
    | cons t ts' => simp at hlen
  | cons c cs ih =>
    intro ts m hnd hlen
    cases ts with
    | nil => simp at hlen
    | cons t ts' =>
      have hcn : c ∉ cs := (List.nodup_cons.mp hnd).1
      have hnd' : cs.Nodup := (List.nodup_cons.mp hnd).2
      have hlen' : cs.length = ts'.length := by simpa using hlen
      simp only [recordAll]
      constructor
      · rw [dictGet_recordAll_not_mem c cs ts' (dictInsert m c t) hcn]
        exact dictGet_dictInsert_self m c t
      · exact ih ts' (dictInsert m c t) hnd' hlen'

theorem dedupByNameAux_names_nodup : ∀ (l : List FeatureColumn)
    (seen : List String),
    ((dedupByNameAux seen l).map FeatureColumn.name).Nodup ∧
    (∀ n ∈ (dedupByNameAux seen l).map FeatureColumn.name, n ∉ seen) := by
  intro l
  induction l with
  | nil => intro seen; exact ⟨List.nodup_nil, by simp [dedupByNameAux]⟩
  | cons c rest ih =>
    intro seen
    by_cases hc : c.name ∈ seen
    · simpa [dedupByNameAux, hc] using ih seen
    · have ihc := ih (c.name :: seen)
      constructor
      · simp only [dedupByNameAux, hc, if_neg, List.map_cons]
        refine List.nodup_cons.mpr ⟨?_, ihc.1⟩
        intro hmem
        exact ihc.2 c.name hmem (List.mem_cons_self c.name seen)
      · intro n hn
        simp only [dedupByNameAux, hc, if_neg, List.map_cons,
          List.mem_cons] at hn
        cases hn with
        | head => exact hc
        | tail _ hn =>
          intro hns
          exact ihc.2 n hn (List.mem_cons_of_mem c.name hns)

theorem dedupByName_names_nodup (l : List FeatureColumn) :
    ((dedupByName l).map FeatureColumn.name).Nodup :=
  (dedupByNameAux_names_nodup l []).1

theorem dedupByName_nodup (l : List FeatureColumn) :
    (dedupByName l).Nodup :=
  (dedupByName_names_nodup l).of_map

theorem call_unfold_true (layer : DenseFeatures) (getDense : GetDenseTensor)
    (features : CallArg) (colsOut : Option ColsMap)
    (hd : features.isDictInstance = true) :
    layer.call getDense features colsOut =
      { result := (callColumns getDense ⟨features.entries⟩ layer.stateManager
          colsOut layer.featureColumns).1.bind verifyAndConcatTensors
        colsToOutputTensors := (callColumns getDense ⟨features.entries⟩
          layer.stateManager colsOut layer.featureColumns).2.1
        layerAfter := layer
        trace := Event.cacheBuilt ⟨features.entries⟩ ::
          (callColumns getDense ⟨features.entries⟩ layer.stateManager
            colsOut layer.featureColumns).2.2 } := by
  simp [DenseFeatures.call, hd]

theorem filter_isCacheBuilt_nil : ∀ (l : List Event),
    (∀ ev ∈ l, Event.isCacheBuilt ev = false) →
    l.filter Event.isCacheBuilt = [] := by
  intro l
  induction l with
  | nil => intro _; rfl
  | cons e l' ih =>
    intro h
    rw [List.filter_cons, h e (List.mem_cons_self e l')]
    exact ih (fun ev hev => h ev (List.mem_cons_of_mem e hev))

/-- C1: for every layer and every successful invocation, the returned tensor
is the last-axis concatenation of the per-descriptor processed tensors in
the stored descriptor order (row by row, each row is the per-descriptor rows
laid side by side in that order), so the output width is the sum of the
per-descriptor widths — for two descriptors of widths `w1` and `w2`, width
`w1 + w2`. -/
theorem call_concatenates_per_descriptor_tensors
    (layer : DenseFeatures) (getDense : GetDenseTensor) (features : CallArg)
    (colsOut : Option ColsMap) (t : Tensor)
    (h : (layer.call getDense features colsOut).result = .ok t) :
    ∃ ts : List Tensor,
      resolvedTensors getDense ⟨features.entries⟩ layer.stateManager
        layer.featureColumns = .ok ts ∧
      verifyAndConcatTensors ts = .ok t ∧
      t.data = concatRows t.batchDim ts ∧
      t.shape = [t.batchDim,
        (layer.featureColumns.map FeatureColumn.numElements).sum] := by
  obtain ⟨ts, h1, h2, h3, h4, h5, h6⟩ :=
    call_ok_characterization layer getDense features colsOut t h
  exact ⟨ts, h1, h2, h6, h4⟩

/-- C1 witness: on the two-descriptor example layer (widths 1 and 2), the
concrete invocation returns the concatenation in stored order, of width
`1 + 2 = 3`. -/
theorem call_concatenates_per_descriptor_tensors_witness :
    ∃ ts : List Tensor,
      resolvedTensors exGetDense ⟨exFeatures.entries⟩ exLayer.stateManager
        exLayer.featureColumns = .ok ts ∧
      verifyAndConcatTensors ts = .ok exOutput ∧
      exOutput.data = concatRows exOutput.batchDim ts ∧
      exOutput.shape = [exOutput.batchDim,
        (exLayer.featureColumns.map FeatureColumn.numElements).sum] :=
  call_concatenates_per_descriptor_tensors exLayer exGetDense exFeatures
    none exOutput (by decide)

/-- C2: invoking `call` with an argument that is not a mapping raises the
input-validation `ValueError` immediately: the trace is empty, so no
transformation cache was built and no descriptor tensor was computed, and
the caller-supplied output mapping is untouched — there is no recovery
attempt.  (The side condition says that dict instances are mappings, which
is a fact of Python's type system.) -/
theorem call_non_mapping_raises_value_error
    (layer : DenseFeatures) (getDense : GetDenseTensor) (features : CallArg)
    (colsOut : Option ColsMap)
    (hmap : features.isMapping = false)
    (hdm : features.isDictInstance = true → features.isMapping = true) :
    (layer.call getDense features colsOut).result =
      .error (.valueError dictErrorMsg) ∧
    (layer.call getDense features colsOut).trace = [] ∧
    (layer.call getDense features colsOut).colsToOutputTensors = colsOut := by
  have hd : features.isDictInstance = false := by
    cases hid : features.isDictInstance
    · rfl
    · rw [hdm hid] at hmap
      cases hmap
  simp [DenseFeatures.call, hd]

/-- C2 witness: a concrete non-mapping argument is rejected with the
`ValueError` before any computation. -/
theorem call_non_mapping_raises_value_error_witness :
    (exLayer.call exGetDense ⟨[], false, false⟩ (some [])).result =
      .error (.valueError dictErrorMsg) ∧
    (exLayer.call exGetDense ⟨[], false, false⟩ (some [])).trace = [] ∧
    (exLayer.call exGetDense ⟨[], false, false⟩
      (some [])).colsToOutputTensors = some [] :=
  call_non_mapping_raises_value_error exLayer exGetDense ⟨[], false, false⟩
    (some []) (by decide) (by decide)

/-- C3: constructing a `DenseFeatures` layer from an iterable that contains
at least one descriptor outside the dense-tensor capability class raises the
construction-time `ValueError`, so no layer object on which `call` could be
invoked is produced. -/
theorem construction_rejects_non_dense_column
    (cols : List FeatureColumn) (tr : Bool) (sm : StateManager)
    (c : FeatureColumn) (hc : c ∈ cols) (hnd : c.isDenseColumn = false) :
    mkDenseFeatures cols tr sm =
      .error (.valueError "Items of feature_columns must be a DenseColumn.") := by
  have hall : ¬ (cols.all (fun c => c.isDenseColumn) = true) := by
    intro hall
    rw [List.all_eq_true] at hall
    have hcd := hall c hc
    rw [hnd] at hcd
    cases hcd
  simp [mkDenseFeatures, hall]

/-- C3 witness: construction with a concrete non-dense (categorical)
descriptor in the list fails with the `ValueError`. -/
theorem construction_rejects_non_dense_column_witness :
    mkDenseFeatures [priceColumn, categoricalColumn] true ⟨0⟩ =
      .error (.valueError "Items of feature_columns must be a DenseColumn.") :=
  construction_rejects_non_dense_column [priceColumn, categoricalColumn]
    true ⟨0⟩ categoricalColumn (by decide) (by decide)

/-- C4: every successful invocation of `call` returns one dense rank-2
matrix of shape `(batch_size, total_width)`, where `total_width` is the sum
of the per-descriptor widths, with dtype 32-bit float; and the target shape
`_target_shape` computes for a per-descriptor tensor keeps the batch
dimension and flattens all remaining elements into one feature dimension. -/
theorem call_output_shape_and_dtype
    (layer : DenseFeatures) (getDense : GetDenseTensor) (features : CallArg)
    (colsOut : Option ColsMap) (t : Tensor)
    (h : (layer.call getDense features colsOut).result = .ok t) :
    t.shape = [t.batchDim,
      (layer.featureColumns.map FeatureColumn.numElements).sum] ∧
    t.shape.length = 2 ∧
    t.dtype = DType.float32 ∧
    (∀ (b : Nat) (ds : List Nat) (n : Nat),
      targetShape (b :: ds) n = some (b, n)) := by
  obtain ⟨ts, h1, h2, h3, h4, h5, h6⟩ :=
    call_ok_characterization layer getDense features colsOut t h
  refine ⟨h4, ?_, h5, ?_⟩
  · rw [h4]
    rfl
  · intro b ds n
    rfl

/-- C4 witness: the concrete invocation returns the `2 × 3` float32 matrix,
and `_target_shape` keeps the batch dimension on a concrete shape. -/
theorem call_output_shape_and_dtype_witness :
    exOutput.shape = [exOutput.batchDim,
      (exLayer.featureColumns.map FeatureColumn.numElements).sum] ∧
    exOutput.shape.length = 2 ∧
    exOutput.dtype = DType.float32 ∧
    (∀ (b : Nat) (ds : List Nat) (n : Nat),
      targetShape (b :: ds) n = some (b, n)) :=
  call_output_shape_and_dtype exLayer exGetDense exFeatures none exOutput
    (by decide)

/-- C5: when `cols_to_output_tensors` is supplied (with distinct keys, as
any Python dict has) and `call` on a constructed layer succeeds, the final
mapping has distinct keys and, for each stored descriptor, maps that
descriptor — the key is the descriptor itself — to exactly the processed
per-descriptor tensor appended to the concatenation, one entry per
descriptor. -/
theorem call_populates_cols_to_output_tensors
    (cols : List FeatureColumn) (tr : Bool) (sm : StateManager)
    (layer : DenseFeatures) (getDense : GetDenseTensor) (features : CallArg)
    (m0 : ColsMap) (t : Tensor)
    (hmk : mkDenseFeatures cols tr sm = .ok layer)
    (hm0 : (m0.map Prod.fst).Nodup)
    (h : (layer.call getDense features (some m0)).result = .ok t) :
    ∃ (m' : ColsMap) (ts : List Tensor),
      (layer.call getDense features (some m0)).colsToOutputTensors =
        some m' ∧
      resolvedTensors getDense ⟨features.entries⟩ layer.stateManager
        layer.featureColumns = .ok ts ∧
      (m'.map Prod.fst).Nodup ∧
      List.Forall₂ (fun (c : FeatureColumn) (p : Tensor) =>
        dictGet m' c = some p) layer.featureColumns ts := by
  have hcols : layer.featureColumns = dedupByName cols := by
    unfold mkDenseFeatures at hmk
    split at hmk
    · cases hmk
      rfl
    · cases hmk
  cases hd : features.isDictInstance with
  | false => simp [DenseFeatures.call, hd] at h
  | true =>
    rw [call_unfold_true layer getDense features (some m0) hd] at h
    rw [callColumns_fst] at h
    cases hr : resolvedTensors getDense ⟨features.entries⟩ layer.stateManager
        layer.featureColumns with
    | error e => simp [hr, Except.bind] at h
    | ok ts =>
      refine ⟨recordAll m0 layer.featureColumns ts, ts, ?_, rfl, ?_, ?_⟩
      · rw [call_unfold_true layer getDense features (some m0) hd]
        exact callColumns_colsOut_ok getDense ⟨features.entries⟩
          layer.stateManager layer.featureColumns ts m0 hr
      · exact recordAll_keys_nodup layer.featureColumns ts m0 hm0
      · have hnd : layer.featureColumns.Nodup := by
          rw [hcols]
          exact dedupByName_nodup cols
        have hlen : layer.featureColumns.length = ts.length :=
          (resolvedTensors_shapes getDense ⟨features.entries⟩
            layer.stateManager layer.featureColumns ts hr).length_eq
        exact dictGet_recordAll layer.featureColumns ts m0 hnd hlen

/-- C5 witness: on the concrete two-descriptor layer with an initially empty
supplied dict, the invocation fills the dict with exactly the two processed
tensors, keyed by the descriptors. -/
theorem call_populates_cols_to_output_tensors_witness :
    ∃ (m' : ColsMap) (ts : List Tensor),
      (exLayer.call exGetDense exFeatures (some [])).colsToOutputTensors =
        some m' ∧
      resolvedTensors exGetDense ⟨exFeatures.entries⟩ exLayer.stateManager
        exLayer.featureColumns = .ok ts ∧
      (m'.map Prod.fst).Nodup ∧
      List.Forall₂ (fun (c : FeatureColumn) (p : Tensor) =>
        dictGet m' c = some p) exLayer.featureColumns ts :=
  call_populates_cols_to_output_tensors [priceColumn, keywordsColumn] true
    ⟨0⟩ exLayer exGetDense exFeatures [] exOutput (by decide) (by decide)
    (by decide)

/-- C6: invocation is deterministic: two invocations of `call` with equal
layers, equal descriptor-resolution operations (which fixes the external
variable state), equal input mappings and equal output-map arguments yield
equal outcomes — in particular identical output tensors. -/
theorem call_deterministic
    (layer₁ layer₂ : DenseFeatures) (getDense₁ getDense₂ : GetDenseTensor)
    (features₁ features₂ : CallArg) (colsOut₁ colsOut₂ : Option ColsMap)
    (hl : layer₁ = layer₂) (hg : getDense₁ = getDense₂)
    (hf : features₁ = features₂) (hc : colsOut₁ = colsOut₂) :
    layer₁.call getDense₁ features₁ colsOut₁ =
      layer₂.call getDense₂ features₂ colsOut₂ := by
  rw [hl, hg, hf, hc]

/-- C6 witness: two concrete invocations on the same inputs give the same
outcome. -/
theorem call_deterministic_witness :
    exLayer.call exGetDense exFeatures none =
      exLayer.call exGetDense exFeatures none :=
  call_deterministic exLayer exLayer exGetDense exGetDense exFeatures
    exFeatures none none rfl rfl rfl rfl

/-- C7: with a dict argument, exactly one transformation cache is
constructed per invocation — the trace holds exactly one cache-construction
event, for the cache wrapping the input mapping — every descriptor
resolution is handed that same cache, and the layer does not retain the
cache: the layer object after the invocation is the unchanged layer, whose
state holds no cache. -/
theorem call_builds_one_shared_cache
    (layer : DenseFeatures) (getDense : GetDenseTensor) (features : CallArg)
    (colsOut : Option ColsMap) (hd : features.isDictInstance = true) :
    (layer.call getDense features colsOut).trace.filter Event.isCacheBuilt =
      [Event.cacheBuilt ⟨features.entries⟩] ∧
    (∀ (n : String) (cache : FeatureTransformationCache),
      Event.resolve n cache ∈ (layer.call getDense features colsOut).trace →
      cache = ⟨features.entries⟩) ∧
    (layer.call getDense features colsOut).layerAfter = layer := by
  rw [call_unfold_true layer getDense features colsOut hd]
  refine ⟨?_, ?_, rfl⟩
  · rw [List.filter_cons]
    have hrest : (callColumns getDense ⟨features.entries⟩ layer.stateManager
        colsOut layer.featureColumns).2.2.filter Event.isCacheBuilt = [] := by
      apply filter_isCacheBuilt_nil
      intro ev hev
      rcases callColumns_trace_resolve getDense ⟨features.entries⟩
        layer.stateManager layer.featureColumns colsOut ev hev with ⟨n, rfl⟩
      rfl
    simp [Event.isCacheBuilt, hrest]
  · intro n cache hmem
    rcases List.mem_cons.mp hmem with heq | hmem'
    · cases heq
    · rcases callColumns_trace_resolve getDense ⟨features.entries⟩
        layer.stateManager layer.featureColumns colsOut _ hmem' with ⟨n', he⟩
      cases he
      rfl

/-- C7 witness: on the concrete invocation, the trace has exactly one
cache-construction event, every resolution used that cache, and the layer is
unchanged. -/
theorem call_builds_one_shared_cache_witness :
    (exLayer.call exGetDense exFeatures none).trace.filter
      Event.isCacheBuilt = [Event.cacheBuilt ⟨exFeatures.entries⟩] ∧
    (∀ (n : String) (cache : FeatureTransformationCache),
      Event.resolve n cache ∈ (exLayer.call exGetDense exFeatures none).trace →
      cache = ⟨exFeatures.entries⟩) ∧
    (exLayer.call exGetDense exFeatures none).layerAfter = exLayer :=
  call_builds_one_shared_cache exLayer exGetDense exFeatures none
    (by decide)

/-- C8: an invocation of `call` leaves the layer's own state unchanged — the
stored descriptor list and the state-manager reference after the call are
the ones established at construction — and when no output-collecting
mapping is supplied none is produced, so the only external effect of `call`
is the optional population of the caller's mapping. -/
theorem call_leaves_layer_unchanged
    (layer : DenseFeatures) (getDense : GetDenseTensor) (features : CallArg)
    (colsOut : Option ColsMap) :
    (layer.call getDense features colsOut).layerAfter = layer ∧
    (layer.call getDense features colsOut).layerAfter.featureColumns =
      layer.featureColumns ∧
    (layer.call getDense features colsOut).layerAfter.stateManager =
      layer.stateManager ∧
    (colsOut = none →
      (layer.call getDense features colsOut).colsToOutputTensors = none) := by
  have hla : (layer.call getDense features colsOut).layerAfter = layer := by
    unfold DenseFeatures.call
    split <;> rfl
  refine ⟨hla, by rw [hla], by rw [hla], ?_⟩
  rintro rfl
  unfold DenseFeatures.call
  split
  · rfl
  · exact callColumns_colsOut_none getDense ⟨features.entries⟩
      layer.stateManager layer.featureColumns

/-- C8 witness: the concrete invocation leaves the layer unchanged and,
with no supplied mapping, produces none. -/
theorem call_leaves_layer_unchanged_witness :
    (exLayer.call exGetDense exFeatures none).layerAfter = exLayer ∧
    (exLayer.call exGetDense exFeatures none).layerAfter.featureColumns =
      exLayer.featureColumns ∧
    (exLayer.call exGetDense exFeatures none).layerAfter.stateManager =
      exLayer.stateManager ∧
    ((none : Option ColsMap) = none →
      (exLayer.call exGetDense exFeatures none).colsToOutputTensors =
        none) :=
  call_leaves_layer_unchanged exLayer exGetDense exFeatures none

/-- C9: the argument type check of `call` accepts exactly dict instances:
for every argument that is not a dict instance — whether it is a mapping or
not — `call` raises the input-validation error with nothing computed, and
for every dict-instance argument the check passes and the invocation
proceeds to build the transformation cache. -/
theorem call_type_check_accepts_exactly_dict_instances
    (layer : DenseFeatures) (getDense : GetDenseTensor)
    (entries : List (String × Tensor)) (isMap : Bool)
    (colsOut : Option ColsMap) :
    (layer.call getDense ⟨entries, isMap, false⟩ colsOut).result =
      .error (.valueError dictErrorMsg) ∧
    (layer.call getDense ⟨entries, isMap, false⟩ colsOut).trace = [] ∧
    (layer.call getDense ⟨entries, isMap, true⟩ colsOut).trace.head? =
      some (Event.cacheBuilt ⟨entries⟩) := by
  refine ⟨?_, ?_, ?_⟩
  · simp [DenseFeatures.call]
  · simp [DenseFeatures.call]
  · rw [call_unfold_true layer getDense ⟨entries, isMap, true⟩ colsOut rfl]
    rfl

/-- C10: population of the output-collecting mapping is not atomic: when
the descriptors before the k-th all succeed and the k-th descriptor's
resolution or processing fails, the error propagates out of `call` while
the supplied mapping already holds the recorded entries for descriptors
`0 … k-1`, with no rollback. -/
theorem call_error_keeps_earlier_entries
    (layer : DenseFeatures) (getDense : GetDenseTensor) (features : CallArg)
    (m0 : ColsMap) (pre post : List FeatureColumn) (ck : FeatureColumn)
    (ts : List Tensor) (e : PyError)
    (hd : features.isDictInstance = true)
    (hcols : layer.featureColumns = pre ++ ck :: post)
    (hpre : resolvedTensors getDense ⟨features.entries⟩ layer.stateManager
      pre = .ok ts)
    (hk : resolveAndProcess getDense ⟨features.entries⟩ layer.stateManager
      ck = .error e) :
    (layer.call getDense features (some m0)).result = .error e ∧
    (layer.call getDense features (some m0)).colsToOutputTensors =
      some (recordAll m0 pre ts) := by
  rw [call_unfold_true layer getDense features (some m0) hd, hcols]
  have hcc := callColumns_error_at getDense ⟨features.entries⟩
    layer.stateManager pre ts ck post m0 e hpre hk
  exact ⟨by simp [hcc.1, Except.bind], hcc.2⟩

/-- C10 witness: with the `kw` feature missing from the input, the second
descriptor's resolution fails; the error propagates and the supplied dict
already holds the processed tensor of the first descriptor. -/
theorem call_error_keeps_earlier_entries_witness :
    (exLayer.call exGetDense ⟨[("price", ⟨[2, 1], .float32, [10, 20]⟩)],
        true, true⟩ (some [])).result =
      .error (.valueError "feature is missing") ∧
    (exLayer.call exGetDense ⟨[("price", ⟨[2, 1], .float32, [10, 20]⟩)],
        true, true⟩ (some [])).colsToOutputTensors =
      some (recordAll [] [priceColumn]
        [⟨[2, 1], .float32, [10, 20]⟩]) :=
  call_error_keeps_earlier_entries exLayer exGetDense
    ⟨[("price", ⟨[2, 1], .float32, [10, 20]⟩)], true, true⟩ []
    [priceColumn] [] keywordsColumn [⟨[2, 1], .float32, [10, 20]⟩]
    (.valueError "feature is missing") (by decide) (by decide) (by decide)
    (by decide)

end DenseFeaturesSpec
